import Mathlib

/-!
Shallow embedding of `source/scripts/parse_headers.py` from the
`luajit-max` repository: a build-time generator that turns parsed C++
header declarations (as produced by an external header parser's
dataclass-to-dict conversion) into LuaBridge binding-registration text.

The embedding covers:
* the binding model (`ParamR`, `CtorR`, `MethodR`, `CppClassR`) — the
  Python classes `Param`, `Constructor`, `Method`, `CppClass`;
* rendering (`paramStr`, `ctorStr`, `methodStr`, `classLines`,
  `renderClass`) — the `__str__` methods;
* extraction (`get_class` over a dict-shaped syntax tree `TreeD`) —
  the Python `get_class`, with Python `KeyError` / `IndexError` /
  `TypeError` made explicit in an `Except`;
* the driver loop (`mainLoop`, `mainRun`) — the Python `main`, with
  per-file inputs given as the outcome of the external `parse_file`.
-/

deriving instance DecidableEq for Except

namespace ParseHeaders

/-- Python `Param` (also the base data of `MethodParam`): a parameter
record with a name, a base type name, and a reference flag. -/
structure ParamR where
  name : String
  type : String
  is_ref : Bool
deriving DecidableEq, Repr

/-- Python `Constructor`: name and ordered parameter records
(the `parent` back-reference is not needed: constructor rendering
never reads it). -/
structure CtorR where
  name : String
  params : List ParamR
deriving DecidableEq, Repr

/-- Python `Method`: name, ordered parameter records and optional
return type (the `parent` back-reference is passed explicitly to the
rendering function as the owning class name). -/
structure MethodR where
  name : String
  params : List ParamR
  returns : Option String
deriving DecidableEq, Repr

/-- Python `CppClass`: class name, optional destructor name, ordered
constructor and method records. -/
structure CppClassR where
  name : String
  destructor : Option String
  constructors : List CtorR
  methods : List MethodR
deriving DecidableEq, Repr

/-- `Param.__str__`: `f"{self.type}{suffix} {self.name}"` with
`suffix = "&" if self.is_ref else ""`. -/
def paramStr (p : ParamR) : String :=
  p.type ++ (if p.is_ref then "&" else "") ++ " " ++ p.name

/-- `MethodParam.__str__`: `f"{self.type}{suffix}"` — type only, no
name. (Not reached by class rendering: `Method.__str__` never calls
`str` on its parameters.) -/
def methodParamStr (p : ParamR) : String :=
  p.type ++ (if p.is_ref then "&" else "")

/-- `Constructor.__str__`: a no-argument registration when `params`
is empty, otherwise the function-pointer form whose argument list
joins `str(p)` — i.e. `paramStr`, type and name — over the params. -/
def ctorStr (c : CtorR) : String :=
  match c.params with
  | [] => "    .addConstructor<void ()> ()"
  | _ => "    .addConstructor<void (*) ("
      ++ String.intercalate ", " (c.params.map paramStr) ++ ")>()"

/-- Python's built-in `str.startswith`, over the character lists of
the two strings (executable, so concrete instances evaluate). -/
def pyStartsWith (s pre : String) : Bool :=
  pre.data.isPrefixOf s.data

/-- The local `get_type` closure inside `Method.__str__`: type with a
`stk::` prefix when the type name starts with `Stk`, and a `&` suffix
when the parameter is a reference. -/
def tickType (p : ParamR) : String :=
  (if pyStartsWith p.type "Stk" then "stk::" else "")
    ++ p.type ++ (if p.is_ref then "&" else "")

/-- `Method.__str__`: for the reserved name `tick`, one overload-list
entry joining `get_type` over the params; otherwise the name-based
`.addFunction` registration. `klass` is `self.parent.name`. -/
def methodStr (klass : String) (m : MethodR) : String :=
  if m.name = "tick" then
    "        luabridge::overload<"
      ++ String.intercalate ", " (m.params.map tickType)
      ++ ">(&stk::" ++ klass ++ "::" ++ m.name ++ "),"
  else
    "    .addFunction(\"" ++ m.name ++ "\", &stk::" ++ klass ++ "::" ++ m.name ++ ")"

/-- The list `res` built by `CppClass.__str__`: begin-class line,
constructor lines in order, method lines in order, end-class line. -/
def classLines (c : CppClassR) : List String :=
  (".beginClass <stk::" ++ c.name ++ "> (\"" ++ c.name ++ "\")")
    :: (c.constructors.map ctorStr
        ++ c.methods.map (methodStr c.name)
        ++ [".endClass()"])

/-- `CppClass.__str__`: the lines joined with newlines. -/
def renderClass (c : CppClassR) : String :=
  String.intercalate "\n" (classLines c)

/-! ## Extraction: `get_class` over the dict-shaped syntax tree

The external parser (`cxxheaderparser.simple.parse_file` followed by
`dataclasses.asdict`) hands `get_class` a nested dict.  The dict
shapes the script touches are embedded as structures below; dict-key
and list-index accesses that can raise are embedded as `Except`
computations, with Python's exception classes as the error type. -/

/-- Python exceptions that extraction can raise: `KeyError` (missing
dict key), `IndexError` (`[0]` on an empty list), `TypeError`
(`'typename' in None`). -/
inductive ExtErr where
  | keyError
  | indexError
  | typeError
deriving DecidableEq, Repr

/-- One entry of a `segments` list: a dict with a `name` key. -/
structure SegmentD where
  name : String
deriving DecidableEq, Repr

/-- A qualified-name dict with a `segments` key. -/
structure PQNameD where
  segments : List SegmentD
deriving DecidableEq, Repr

/-- The dict for a parameter or return type.  The parser produces a
`Type` dict (keys `typename`, `const`, `volatile`), a `Reference`
dict (single key `ref_to`, holding another type dict), or another
shape (`Pointer`, `Array`, `FunctionType`, ... — keys `ptr_to` etc.);
no type dict carries a top-level `segments` key. -/
inductive TypeD where
  | plain (typename : PQNameD)
  | ref (ref_to : TypeD)
  | other
deriving DecidableEq, Repr

/-- A parameter dict: keys `name` and `type`. -/
structure ParameterD where
  name : String
  type : TypeD
deriving DecidableEq, Repr

/-- A class-member dict as `get_class` reads it: keys `access`,
`constructor`, `destructor`, `name`, `parameters`, `return_type`
(`return_type` is `None` for constructors and destructors). -/
structure MemberD where
  access : String
  constructor : Bool
  destructor : Bool
  name : PQNameD
  parameters : List ParameterD
  return_type : Option TypeD
deriving DecidableEq, Repr

/-- The `class_decl` dict: key `typename`. -/
structure ClassDeclD where
  typename : PQNameD
deriving DecidableEq, Repr

/-- One entry of the `classes` list: keys `class_decl` and `methods`. -/
structure ClassScopeD where
  class_decl : ClassDeclD
  methods : List MemberD
deriving DecidableEq, Repr

/-- The namespace dict reached via `['namespace']['namespaces']['stk']`:
`get_class` only reads its `classes` key. -/
structure StkNamespaceD where
  classes : List ClassScopeD
deriving DecidableEq, Repr

/-- The top-level namespace dict: its `namespaces` key is a dict from
namespace name to namespace, embedded as an association list. -/
structure NamespaceScopeD where
  namespaces : List (String × StkNamespaceD)
deriving DecidableEq, Repr

/-- The whole parsed tree (`dataclasses.asdict(parse_file(f))`): `ns`
embeds its `namespace` key (a Lean keyword, hence the shorter name). -/
structure TreeD where
  ns : NamespaceScopeD
deriving DecidableEq, Repr

/-- `pq['segments'][0]['name']`: `IndexError` when `segments` is empty. -/
def seg0Name (pq : PQNameD) : Except ExtErr String :=
  match pq.segments with
  | [] => .error .indexError
  | s :: _ => .ok s.name

/-- Python dict lookup `d[k]` on the `namespaces` dict: `KeyError`
when the key is absent. -/
def dictFind (l : List (String × StkNamespaceD)) (k : String) :
    Except ExtErr StkNamespaceD :=
  match l.find? (fun kv => kv.1 == k) with
  | some kv => .ok kv.2
  | none => .error .keyError

/-- The constructor-parameter loop of `get_class`:
`if 'typename' in p['type']` appends a non-reference record from
`['typename']['segments'][0]['name']`; `elif 'ref_to' in p['type']`
reads `p['type']['ref_to']['segments'][0]['name']` — but the `ref_to`
value is itself a type dict (`typename`/`ref_to`/`ptr_to`/... keys,
never `segments`), so this lookup raises `KeyError`; any other shape
matches neither branch and the parameter is skipped. -/
def ctorParamsOf : List ParameterD → Except ExtErr (List ParamR)
  | [] => .ok []
  | p :: ps =>
    match p.type with
    | .plain pq => do
        let t ← seg0Name pq
        let rest ← ctorParamsOf ps
        .ok (⟨p.name, t, false⟩ :: rest)
    | .ref _ => .error .keyError
    | .other => ctorParamsOf ps

/-- The method-parameter loop of `get_class`: like the constructor
loop, but the reference branch reads
`p['type']['ref_to']['typename']['segments'][0]['name']`, which
succeeds when the referent is a plain `Type` dict and raises
`KeyError` (`'typename'` missing) otherwise. -/
def methodParamsOf : List ParameterD → Except ExtErr (List ParamR)
  | [] => .ok []
  | p :: ps =>
    match p.type with
    | .plain pq => do
        let t ← seg0Name pq
        let rest ← methodParamsOf ps
        .ok (⟨p.name, t, false⟩ :: rest)
    | .ref (.plain pq) => do
        let t ← seg0Name pq
        let rest ← methodParamsOf ps
        .ok (⟨p.name, t, true⟩ :: rest)
    | .ref _ => .error .keyError
    | .other => methodParamsOf ps

/-- `if 'typename' in m['return_type']`: on `None` this membership
test raises `TypeError`; a plain `Type` dict yields its base name;
any other shape leaves `returns` as `None`. -/
def returnsOf : Option TypeD → Except ExtErr (Option String)
  | none => .error .typeError
  | some (.plain pq) => do
      let t ← seg0Name pq
      .ok (some t)
  | some _ => .ok none

/-- The accumulator `r` built by the member loop of `get_class`. -/
structure EntryAcc where
  constructors : List CtorR
  destructor : Option String
  methods : List MethodR
deriving DecidableEq, Repr

/-- One iteration of the member loop of `get_class`: non-public
members are skipped; a constructor appends a `CtorR`; a destructor
overwrites `r['destructor']`; anything else appends a `MethodR`
(name, then return type, then parameters — the evaluation order of
the Python statements). -/
def memberStep (acc : EntryAcc) (m : MemberD) : Except ExtErr EntryAcc :=
  if m.access = "public" then
    if m.constructor then do
      let cname ← seg0Name m.name
      let ps ← ctorParamsOf m.parameters
      .ok { acc with constructors := acc.constructors ++ [⟨cname, ps⟩] }
    else if m.destructor then do
      let dname ← seg0Name m.name
      .ok { acc with destructor := some dname }
    else do
      let fname ← seg0Name m.name
      let ret ← returnsOf m.return_type
      let ps ← methodParamsOf m.parameters
      .ok { acc with methods := acc.methods ++ [⟨fname, ps, ret⟩] }
  else
    .ok acc

/-- `get_class`: descend `['namespace']['namespaces']['stk']`, take
`['classes'][0]`, read the class name, fold the member loop, and
build the `CppClass` (Python then re-wraps the entry dict through
`CppClass.__init__`, which preserves all four fields and their
order). -/
def get_class (t : TreeD) : Except ExtErr CppClassR := do
  let d ← dictFind t.ns.namespaces "stk"
  let cls ←
    match d.classes with
    | [] => .error .indexError
    | c :: _ => .ok c
  let cname ← seg0Name cls.class_decl.typename
  let acc ← cls.methods.foldlM memberStep ⟨[], none, []⟩
  .ok ⟨cname, acc.destructor, acc.constructors, acc.methods⟩

/-! ## Driver: `main`

`main` iterates the corpus; per file it runs the external
`parse_file` and then `get_class`, catching `CxxParseError`,
`KeyError` and `IndexError` (skip and report the file name), while
any other exception propagates and aborts the run.  The external
parser's outcome for each file is an input of the embedding: either a
tree, or `CxxParseError`, or some other exception. -/

/-- Outcome of the external `parse_file` when it does not return a
tree: the parse error the script catches, or any other exception. -/
inductive PErr where
  | cxxParseError
  | otherError
deriving DecidableEq, Repr

/-- One corpus file: its stem name and what `parse_file` produced. -/
abbrev FileInput := String × Except PErr TreeD

/-- A skip-and-continue report printed by `main`: `"ERROR: "`,
`"KeyError: "` or `"IndexError: "` followed by the file name. -/
inductive Report where
  | parseErr (name : String)
  | keyErr (name : String)
  | idxErr (name : String)
deriving DecidableEq, Repr

/-- The file name a report carries. -/
def reportName : Report → String
  | .parseErr n => n
  | .keyErr n => n
  | .idxErr n => n

/-- An exception `main` does not catch (aborts the run). -/
inductive RunErr where
  | typeErr
  | otherErr
deriving DecidableEq, Repr

/-- The per-file loop of `main`: accumulate extracted classes and
reports in file order; uncaught exceptions abort (short-circuit). -/
def mainLoop : List FileInput → Except RunErr (List CppClassR × List Report)
  | [] => .ok ([], [])
  | (name, parsed) :: rest =>
    match parsed with
    | .error .cxxParseError => do
        let (cs, rs) ← mainLoop rest
        .ok (cs, .parseErr name :: rs)
    | .error .otherError => .error .otherErr
    | .ok tree =>
      match get_class tree with
      | .ok k => do
          let (cs, rs) ← mainLoop rest
          .ok (k :: cs, rs)
      | .error .keyError => do
          let (cs, rs) ← mainLoop rest
          .ok (cs, .keyErr name :: rs)
      | .error .indexError => do
          let (cs, rs) ← mainLoop rest
          .ok (cs, .idxErr name :: rs)
      | .error .typeError => .error .typeErr

/-- `main`: run the loop, then print each accumulated class block
(`print(c)` calls `CppClass.__str__`).  The run's output is the list
of rendered blocks plus the reports. -/
def mainRun (files : List FileInput) : Except RunErr (List String × List Report) :=
  (mainLoop files).map (fun p => (p.1.map renderClass, p.2))

/-- What `main` does with one file, as a single classification:
extract a class, recover with a report, or abort. -/
inductive FOut where
  | ok (k : CppClassR)
  | recovered (r : Report)
  | fatal (e : RunErr)
deriving DecidableEq, Repr

/-- The classification of one file's processing. -/
def outcome : FileInput → FOut
  | (name, parsed) =>
    match parsed with
    | .error .cxxParseError => .recovered (.parseErr name)
    | .error .otherError => .fatal .otherErr
    | .ok tree =>
      match get_class tree with
      | .ok k => .ok k
      | .error .keyError => .recovered (.keyErr name)
      | .error .indexError => .recovered (.idxErr name)
      | .error .typeError => .fatal .typeErr

/-! ## Concrete inputs -/

/-- The spec's scenario header: in namespace `stk`, class `Foo` with
constructor `Foo()`, destructor `~Foo()`, method `void tick(StkFloat)`
and method `double tick()`. -/
def fooTree : TreeD :=
  ⟨⟨[("stk",
      ⟨[⟨⟨⟨[⟨"Foo"⟩]⟩⟩,
        [⟨"public", true, false, ⟨[⟨"Foo"⟩]⟩, [], none⟩,
         ⟨"public", false, true, ⟨[⟨"~Foo"⟩]⟩, [], none⟩,
         ⟨"public", false, false, ⟨[⟨"tick"⟩]⟩,
           [⟨"value", .plain ⟨[⟨"StkFloat"⟩]⟩⟩],
           some (.plain ⟨[⟨"void"⟩]⟩)⟩,
         ⟨"public", false, false, ⟨[⟨"tick"⟩]⟩, [],
           some (.plain ⟨[⟨"double"⟩]⟩)⟩]⟩]⟩)]⟩⟩

/-- The class record the scenario extracts to. -/
def fooRecord : CppClassR :=
  ⟨"Foo", some "~Foo", [⟨"Foo", []⟩],
   [⟨"tick", [⟨"value", "StkFloat", false⟩], some "void"⟩,
    ⟨"tick", [], some "double"⟩]⟩

/-- A header whose class `Bar` has a public constructor with one
reference parameter `Bar(StkFloat& value)`. -/
def barTree : TreeD :=
  ⟨⟨[("stk",
      ⟨[⟨⟨⟨[⟨"Bar"⟩]⟩⟩,
        [⟨"public", true, false, ⟨[⟨"Bar"⟩]⟩,
           [⟨"value", .ref (.plain ⟨[⟨"StkFloat"⟩]⟩)⟩], none⟩]⟩]⟩)]⟩⟩

/-- The constructor-registration line as the spec describes it: the
parameter-type list is exactly the declared parameter types in order,
each suffixed with the reference marker, with no parameter names
(i.e. joining `methodParamStr` instead of `paramStr`). -/
def ctorClaimStr (c : CtorR) : String :=
  "    .addConstructor<void (*) ("
    ++ String.intercalate ", " (c.params.map methodParamStr) ++ ")>()"

/-- The overload-list entry form for the reserved name, as a function
of the owning class name and the parameters' `(type, is_ref)` pairs
only — no parameter names enter. -/
def overloadEntry (klass : String) (tys : List (String × Bool)) : String :=
  "        luabridge::overload<"
    ++ String.intercalate ", " (tys.map (fun ty =>
        (if pyStartsWith ty.1 "Stk" then "stk::" else "")
          ++ ty.1 ++ (if ty.2 then "&" else "")))
    ++ ">(&stk::" ++ klass ++ "::" ++ "tick" ++ "),"

/-- The data of a method record that class rendering can see: its
name and its parameters. -/
def methodSig (m : MethodR) : String × List ParamR :=
  (m.name, m.params)

/-- `Method.__str__` as a function of the owning class name and the
method's signature projection alone. -/
def methodStrSig (klass : String) (sig : String × List ParamR) : String :=
  if sig.1 = "tick" then
    "        luabridge::overload<"
      ++ String.intercalate ", " (sig.2.map tickType)
      ++ ">(&stk::" ++ klass ++ "::" ++ sig.1 ++ "),"
  else
    "    .addFunction(\"" ++ sig.1 ++ "\", &stk::" ++ klass ++ "::" ++ sig.1 ++ ")"

/-! ## Theorems -/

/-- C1, counterexample: on a constructor with one reference parameter
`StkFloat& value`, the rendered line is not the types-only form the
claim states — the parameter name `value` is emitted after the type. -/
theorem ctor_line_types_only_cex :
    ctorStr ⟨"Foo", [⟨"value", "StkFloat", true⟩]⟩
      ≠ ctorClaimStr ⟨"Foo", [⟨"value", "StkFloat", true⟩]⟩ := by decide

/-- C1, amended: for a constructor with a non-empty parameter list,
the rendered registration line lists the declared parameters in
declaration order, each rendered as its type, suffixed with the
reference marker when `is_ref` is true, followed by a space and the
parameter name — so parameter names are emitted. -/
theorem ctor_line_params_in_order (c : CtorR) (h : c.params ≠ []) :
    ctorStr c = "    .addConstructor<void (*) ("
      ++ String.intercalate ", " (c.params.map paramStr) ++ ")>()" := by
  obtain ⟨n, ps⟩ := c
  cases ps with
  | nil => simp at h
  | cons p ps => rfl

/-- Witness for `ctor_line_params_in_order` at a concrete one-element
parameter list. -/
theorem ctor_line_params_in_order_witness :
    ctorStr ⟨"Foo", [⟨"value", "StkFloat", true⟩]⟩
      = "    .addConstructor<void (*) (StkFloat& value)>()" := by
  rw [ctor_line_params_in_order ⟨"Foo", [⟨"value", "StkFloat", true⟩]⟩ (by decide)]
  rfl

/-- C2: on a class whose public constructor takes `StkFloat& value`,
`get_class` raises `KeyError` (the whole file is skipped) instead of
producing an `is_reference=true` record, because the constructor
branch reads `['ref_to']['segments']` while the `ref_to` dict only
has a `typename` key; the method-parameter loop on the very same
parameter shape succeeds with `is_ref = true`, and rendering then
attaches the reference marker (and a plain parameter renders without
it). -/
theorem ctor_ref_param_keyerror :
    get_class barTree = .error .keyError
    ∧ ctorParamsOf [⟨"value", .ref (.plain ⟨[⟨"StkFloat"⟩]⟩)⟩] = .error .keyError
    ∧ methodParamsOf [⟨"value", .ref (.plain ⟨[⟨"StkFloat"⟩]⟩)⟩]
        = .ok [⟨"value", "StkFloat", true⟩]
    ∧ methodStr "Bar" ⟨"tick", [⟨"value", "StkFloat", true⟩], some "void"⟩
        = "        luabridge::overload<stk::StkFloat&>(&stk::Bar::tick),"
    ∧ methodStr "Bar" ⟨"tick", [⟨"value", "StkFloat", false⟩], some "void"⟩
        = "        luabridge::overload<stk::StkFloat>(&stk::Bar::tick)," := by decide

/-- C4, counterexample: on the spec's scenario header, the rendered
lines are not the ones the claim expects — the overload entry for the
zero-parameter `double tick()` lists no types at all, not `(double)`
(the return type is never part of an overload entry). -/
theorem foo_scenario_claim_cex :
    (get_class fooTree).map classLines
      ≠ .ok [".beginClass <stk::Foo> (\"Foo\")",
             "    .addConstructor<void ()> ()",
             "        luabridge::overload<stk::StkFloat>(&stk::Foo::tick),",
             "        luabridge::overload<double>(&stk::Foo::tick),",
             ".endClass()"] := by decide

/-- C4, amended: the scenario renders a begin-class line for `Foo`,
one no-argument constructor line, overload entries for `tick` with
parameter-type lists `(stk::StkFloat)` and `()` — the `stk::` prefix
added exactly when the type name starts with `Stk`, and the second
entry empty because `double tick()` declares no parameters — in
declaration order, and an end-class line. -/
theorem foo_scenario_rendering :
    (get_class fooTree).map classLines
      = .ok [".beginClass <stk::Foo> (\"Foo\")",
             "    .addConstructor<void ()> ()",
             "        luabridge::overload<stk::StkFloat>(&stk::Foo::tick),",
             "        luabridge::overload<>(&stk::Foo::tick),",
             ".endClass()"] := by decide

/-- C3: the `tick` methods of a class contribute their rendered lines
to the class's rendered lines as an order-preserving sublist, one
line per `tick` method record (so the entry count equals the number
of method records named `tick`), and each such line is the overload
form determined by the owning class name and the parameters'
`(type, is_ref)` pairs alone — types only, in declaration order,
never parameter names. -/
theorem tick_overload_entries (c : CppClassR) :
    List.Sublist
      ((c.methods.filter (fun m => m.name == "tick")).map (methodStr c.name))
      (classLines c)
    ∧ ((c.methods.filter (fun m => m.name == "tick")).map (methodStr c.name)).length
        = (c.methods.filter (fun m => m.name == "tick")).length
    ∧ ∀ m ∈ c.methods, m.name = "tick" →
        methodStr c.name m
          = overloadEntry c.name (m.params.map (fun p => (p.type, p.is_ref))) := by
  refine ⟨?_, List.length_map _ _, ?_⟩
  · have h₁ : List.Sublist
        ((c.methods.filter (fun m => m.name == "tick")).map (methodStr c.name))
        (c.methods.map (methodStr c.name)) :=
      List.Sublist.map _ (List.filter_sublist _)
    refine h₁.trans ?_
    unfold classLines
    refine List.Sublist.trans ?_ (List.sublist_cons_self _ _)
    refine List.Sublist.trans (List.sublist_append_left _ [".endClass()"]) ?_
    rw [List.append_assoc]
    exact List.sublist_append_right _ _
  · intro m _ hm
    unfold methodStr overloadEntry
    rw [hm, if_pos rfl, List.map_map]
    rfl

/-- Witness for `tick_overload_entries` at the scenario class. -/
theorem tick_overload_entries_witness :
    List.Sublist
      ((fooRecord.methods.filter (fun m => m.name == "tick")).map (methodStr fooRecord.name))
      (classLines fooRecord)
    ∧ methodStr fooRecord.name ⟨"tick", [⟨"value", "StkFloat", false⟩], some "void"⟩
        = overloadEntry fooRecord.name [("StkFloat", false)] := by
  refine ⟨(tick_overload_entries fooRecord).1, ?_⟩
  have h := (tick_overload_entries fooRecord).2.2
    ⟨"tick", [⟨"value", "StkFloat", false⟩], some "void"⟩ (by decide) rfl
  simpa using h

/-- C6, counterexample: a parameter declared as a reference to an
unsupported shape (e.g. a reference to a pointer, `int*&`) has a type
that is neither a plain named type nor a reference to a named type,
yet neither parameter loop silently omits it: both raise `KeyError`
(`['ref_to']['typename']` resp. `['ref_to']['segments']` on a dict
without that key), failing the file, so its extraction result is not
that of the list without the parameter. -/
theorem ref_unsupported_param_cex :
    methodParamsOf [⟨"p", .ref .other⟩] = .error .keyError
    ∧ ctorParamsOf [⟨"p", .ref .other⟩] = .error .keyError
    ∧ methodParamsOf [⟨"p", .ref .other⟩] ≠ methodParamsOf []
    ∧ ctorParamsOf [⟨"p", .ref .other⟩] ≠ ctorParamsOf [] := by decide

/-- C6, amended: a parameter whose type dict matches neither the
`typename` branch nor the `ref_to` branch (pointer, template, array,
... at the top level) is silently dropped by both parameter loops —
extracting a list with such a parameter gives exactly the result of
extracting the list without it, so the loop never fails on its
account and the remaining parameters keep their order; a parameter
declared as a reference to anything but a plain named type is not
dropped: the method loop raises `KeyError` unless the referent is a
plain `Type` dict, and the constructor loop raises `KeyError` for
every reference (see C2). -/
theorem unsupported_param_shape_dropped :
    (∀ (ps₁ ps₂ : List ParameterD) (p : ParameterD), p.type = .other →
        methodParamsOf (ps₁ ++ p :: ps₂) = methodParamsOf (ps₁ ++ ps₂))
    ∧ (∀ (ps₁ ps₂ : List ParameterD) (p : ParameterD), p.type = .other →
        ctorParamsOf (ps₁ ++ p :: ps₂) = ctorParamsOf (ps₁ ++ ps₂))
    ∧ (∀ (n : String) (rt : TypeD) (ps : List ParameterD),
        (∀ pq, rt ≠ TypeD.plain pq) →
        methodParamsOf (⟨n, .ref rt⟩ :: ps) = .error .keyError)
    ∧ (∀ (n : String) (rt : TypeD) (ps : List ParameterD),
        ctorParamsOf (⟨n, .ref rt⟩ :: ps) = .error .keyError) := by
  refine ⟨?_, ?_, ?_, fun n rt ps => rfl⟩
  · intro ps₁
    induction ps₁ with
    | nil =>
      intro ps₂ p hp
      obtain ⟨n, ty⟩ := p
      simp only at hp
      subst hp
      rfl
    | cons q qs ih =>
      intro ps₂ p hp
      obtain ⟨qn, qty⟩ := q
      cases qty with
      | plain pq =>
        simp only [List.cons_append, methodParamsOf, List.append_eq]
        rw [ih _ _ hp]
      | ref rt =>
        cases rt with
        | plain pq =>
          simp only [List.cons_append, methodParamsOf, List.append_eq]
          rw [ih _ _ hp]
        | ref rt2 => simp only [List.cons_append, methodParamsOf]
        | other => simp only [List.cons_append, methodParamsOf]
      | other => simpa only [List.cons_append, methodParamsOf] using ih _ _ hp
  · intro ps₁
    induction ps₁ with
    | nil =>
      intro ps₂ p hp
      obtain ⟨n, ty⟩ := p
      simp only at hp
      subst hp
      rfl
    | cons q qs ih =>
      intro ps₂ p hp
      obtain ⟨qn, qty⟩ := q
      cases qty with
      | plain pq =>
        simp only [List.cons_append, ctorParamsOf, List.append_eq]
        rw [ih _ _ hp]
      | ref rt => simp only [List.cons_append, ctorParamsOf]
      | other => simpa only [List.cons_append, ctorParamsOf] using ih _ _ hp
  · intro n rt ps h
    cases rt with
    | plain pq => exact absurd rfl (h pq)
    | ref rt2 => rfl
    | other => rfl

/-- Witness for `unsupported_param_shape_dropped`: a pointer-shaped
parameter between two plain ones and alone in a constructor list, and
a reference-to-pointer parameter failing both loops. -/
theorem unsupported_param_shape_dropped_witness :
    methodParamsOf [⟨"a", .plain ⟨[⟨"StkFloat"⟩]⟩⟩, ⟨"b", .other⟩,
        ⟨"c", .plain ⟨[⟨"double"⟩]⟩⟩]
      = methodParamsOf [⟨"a", .plain ⟨[⟨"StkFloat"⟩]⟩⟩, ⟨"c", .plain ⟨[⟨"double"⟩]⟩⟩]
    ∧ ctorParamsOf [⟨"b", .other⟩] = ctorParamsOf []
    ∧ methodParamsOf [⟨"q", .ref .other⟩] = .error .keyError
    ∧ ctorParamsOf [⟨"q", .ref .other⟩] = .error .keyError :=
  ⟨unsupported_param_shape_dropped.1 [⟨"a", .plain ⟨[⟨"StkFloat"⟩]⟩⟩]
      [⟨"c", .plain ⟨[⟨"double"⟩]⟩⟩] ⟨"b", .other⟩ rfl,
   unsupported_param_shape_dropped.2.1 [] [] ⟨"b", .other⟩ rfl,
   unsupported_param_shape_dropped.2.2.1 "q" .other [] (fun pq => by simp),
   unsupported_param_shape_dropped.2.2.2 "q" .other []⟩

/-- C8: a method whose name is not the reserved `tick` renders to the
name-based `.addFunction` registration, and the line is unchanged
under any replacement of the method's parameters and return type. -/
theorem non_tick_method_rendering (klass : String) (m : MethodR)
    (h : m.name ≠ "tick") :
    methodStr klass m
      = "    .addFunction(\"" ++ m.name ++ "\", &stk::" ++ klass ++ "::" ++ m.name ++ ")"
    ∧ ∀ (ps : List ParamR) (ret : Option String),
        methodStr klass ⟨m.name, ps, ret⟩ = methodStr klass m := by
  refine ⟨by simp [methodStr, h], ?_⟩
  intro ps ret
  simp [methodStr, h]

/-- Witness for `non_tick_method_rendering` at a concrete method. -/
theorem non_tick_method_rendering_witness :
    methodStr "Foo" ⟨"setFrequency", [⟨"f", "StkFloat", false⟩], some "void"⟩
      = "    .addFunction(\"setFrequency\", &stk::Foo::setFrequency)"
    ∧ methodStr "Foo" ⟨"setFrequency", [], none⟩
        = methodStr "Foo" ⟨"setFrequency", [⟨"f", "StkFloat", false⟩], some "void"⟩ := by
  have h := non_tick_method_rendering "Foo"
    ⟨"setFrequency", [⟨"f", "StkFloat", false⟩], some "void"⟩ (by decide)
  exact ⟨h.1.trans (by rfl), h.2 [] none⟩

/-- C10: rendering reads neither the destructor name nor any method's
return type — two class records agreeing on class name, constructors,
and each method's name and parameters render to identical text. -/
theorem render_ignores_destructor_and_returns (c₁ c₂ : CppClassR)
    (hname : c₁.name = c₂.name)
    (hctors : c₁.constructors = c₂.constructors)
    (hmeths : c₁.methods.map methodSig = c₂.methods.map methodSig) :
    renderClass c₁ = renderClass c₂ := by
  unfold renderClass classLines
  rw [hname, hctors]
  have hlines : c₁.methods.map (methodStr c₂.name)
      = c₂.methods.map (methodStr c₂.name) := by
    calc c₁.methods.map (methodStr c₂.name)
        = (c₁.methods.map methodSig).map (methodStrSig c₂.name) := by
          rw [List.map_map]; rfl
      _ = (c₂.methods.map methodSig).map (methodStrSig c₂.name) := by
          rw [hmeths]
      _ = c₂.methods.map (methodStr c₂.name) := by
          rw [List.map_map]; rfl
  rw [hlines]

/-- Witness for `render_ignores_destructor_and_returns`: records with
different destructor names and return types render identically. -/
theorem render_ignores_destructor_and_returns_witness :
    renderClass ⟨"Foo", some "~Foo", [⟨"Foo", []⟩], [⟨"tick", [], some "void"⟩]⟩
      = renderClass ⟨"Foo", none, [⟨"Foo", []⟩], [⟨"tick", [], some "double"⟩]⟩ :=
  render_ignores_destructor_and_returns _ _ rfl rfl (by decide)

/-- C7: a constructor record with an empty parameter list renders to
the canonical no-argument registration line, whatever its name. -/
theorem ctor_noarg_canonical (n : String) :
    ctorStr ⟨n, []⟩ = "    .addConstructor<void ()> ()" := rfl

/-- Unfolding `mainLoop` over a file whose processing extracts a
class. -/
theorem mainLoop_cons_ok (f : FileInput) (rest : List FileInput)
    (k : CppClassR) (h : outcome f = FOut.ok k) :
    mainLoop (f :: rest) = (mainLoop rest).map (fun p => (k :: p.1, p.2)) := by
  obtain ⟨name, parsed⟩ := f
  cases parsed with
  | error e => cases e <;> simp [outcome] at h
  | ok tree =>
    cases hg : get_class tree with
    | ok k2 =>
      simp only [outcome, hg] at h
      cases h
      cases hr : mainLoop rest <;>
        simp [mainLoop, hg, hr, Except.map, Except.bind, bind]
    | error e =>
      cases e <;> simp [outcome, hg] at h

/-- Unfolding `mainLoop` over a file whose processing is recovered
with a report. -/
theorem mainLoop_cons_recovered (f : FileInput) (rest : List FileInput)
    (r : Report) (h : outcome f = FOut.recovered r) :
    mainLoop (f :: rest) = (mainLoop rest).map (fun p => (p.1, r :: p.2)) := by
  obtain ⟨name, parsed⟩ := f
  cases parsed with
  | error e =>
    cases e with
    | cxxParseError =>
      simp only [outcome] at h
      cases h
      cases hr : mainLoop rest <;>
        simp [mainLoop, hr, Except.map, Except.bind, bind]
    | otherError => simp [outcome] at h
  | ok tree =>
    cases hg : get_class tree with
    | ok k2 => simp [outcome, hg] at h
    | error e =>
      cases e <;> simp only [outcome, hg] at h <;> cases h <;>
        cases hr : mainLoop rest <;>
          simp [mainLoop, hg, hr, Except.map, Except.bind, bind]

/-- Unfolding `mainLoop` over a file whose processing raises an
exception `main` does not catch: the run aborts. -/
theorem mainLoop_cons_fatal (f : FileInput) (rest : List FileInput)
    (e : RunErr) (h : outcome f = FOut.fatal e) :
    mainLoop (f :: rest) = .error e := by
  obtain ⟨name, parsed⟩ := f
  cases parsed with
  | error pe =>
    cases pe with
    | cxxParseError => simp [outcome] at h
    | otherError =>
      simp only [outcome] at h
      cases h
      simp [mainLoop]
  | ok tree =>
    cases hg : get_class tree with
    | ok k2 => simp [outcome, hg] at h
    | error ee =>
      cases ee with
      | keyError => simp [outcome, hg] at h
      | indexError => simp [outcome, hg] at h
      | typeError =>
        simp only [outcome, hg] at h
        cases h
        simp [mainLoop, hg]

/-- A run over files that all extract produces one class per file and
no report. -/
theorem mainLoop_all_ok (l : List FileInput)
    (h : ∀ g ∈ l, ∃ k, outcome g = FOut.ok k) :
    ∃ cs, mainLoop l = .ok (cs, []) ∧ cs.length = l.length := by
  induction l with
  | nil => exact ⟨[], rfl, rfl⟩
  | cons f rest ih =>
    obtain ⟨k, hk⟩ := h f (List.mem_cons_self f rest)
    obtain ⟨cs, hcs, hlen⟩ := ih (fun g hg => h g (List.mem_cons_of_mem f hg))
    refine ⟨k :: cs, ?_, by simp [hlen]⟩
    rw [mainLoop_cons_ok f rest k hk, hcs]
    rfl

/-- Prepending all-extracting files to a run contributes one leading
class per file and leaves the rest of the run unchanged. -/
theorem mainLoop_append_ok (pre rest : List FileInput)
    (h : ∀ g ∈ pre, ∃ k, outcome g = FOut.ok k) :
    ∃ preCs, preCs.length = pre.length
      ∧ mainLoop (pre ++ rest) = (mainLoop rest).map (fun p => (preCs ++ p.1, p.2)) := by
  induction pre with
  | nil =>
    refine ⟨[], rfl, ?_⟩
    cases hr : mainLoop rest <;> simp [Except.map, hr]
  | cons f pre2 ih =>
    obtain ⟨k, hk⟩ := h f (List.mem_cons_self f pre2)
    obtain ⟨preCs, hlen, he⟩ := ih (fun g hg => h g (List.mem_cons_of_mem f hg))
    refine ⟨k :: preCs, by simp [hlen], ?_⟩
    rw [List.cons_append, mainLoop_cons_ok f (pre2 ++ rest) k hk, he]
    cases hr : mainLoop rest <;> simp [Except.map, hr]

/-- A recovered per-file failure always reports the file's own name. -/
theorem outcome_recovered_name (f : FileInput) (r : Report)
    (h : outcome f = FOut.recovered r) : reportName r = f.1 := by
  obtain ⟨name, parsed⟩ := f
  cases parsed with
  | error e =>
    cases e with
    | cxxParseError =>
      simp only [outcome] at h
      cases h
      rfl
    | otherError => simp [outcome] at h
  | ok tree =>
    cases hg : get_class tree with
    | ok k2 => simp [outcome, hg] at h
    | error e =>
      cases e with
      | keyError =>
        simp only [outcome, hg] at h
        cases h
        rfl
      | indexError =>
        simp only [outcome, hg] at h
        cases h
        rfl
      | typeError => simp [outcome, hg] at h

/-- If some file's processing raises an exception `main` does not
catch, the whole run aborts. -/
theorem mainLoop_fatal_mem (files : List FileInput) (f : FileInput)
    (e : RunErr) (hf : f ∈ files) (h : outcome f = FOut.fatal e) :
    ∃ e2, mainLoop files = .error e2 := by
  induction files with
  | nil => cases hf
  | cons g rest ih =>
    rcases List.mem_cons.mp hf with hg | hg
    · rw [← hg]
      exact ⟨e, mainLoop_cons_fatal f rest e h⟩
    · cases ho : outcome g with
      | ok k =>
        obtain ⟨e2, he2⟩ := ih hg
        refine ⟨e2, ?_⟩
        rw [mainLoop_cons_ok g rest k ho, he2]
        rfl
      | recovered r =>
        obtain ⟨e2, he2⟩ := ih hg
        refine ⟨e2, ?_⟩
        rw [mainLoop_cons_recovered g rest r ho, he2]
        rfl
      | fatal e3 =>
        exact ⟨e3, mainLoop_cons_fatal g rest e3 ho⟩

/-- C5: (isolation) in a run where exactly one file fails with one of
the three recognized failure kinds and every other file extracts, the
output is the rendered blocks of the other files — one block per
file, N−1 in total — plus exactly one report, and that report names
the failing file; (abort) a failure of any other kind anywhere in the
corpus aborts the whole run. -/
theorem run_failure_isolation :
    (∀ (pre post : List FileInput) (f : FileInput) (r : Report),
        (∀ g ∈ pre, ∃ k, outcome g = FOut.ok k) →
        (∀ g ∈ post, ∃ k, outcome g = FOut.ok k) →
        outcome f = FOut.recovered r →
        ∃ blocks, mainRun (pre ++ f :: post) = .ok (blocks, [r])
          ∧ blocks.length = (pre ++ f :: post).length - 1
          ∧ reportName r = f.1)
    ∧ (∀ (files : List FileInput) (f : FileInput) (e : RunErr),
        f ∈ files → outcome f = FOut.fatal e →
        ∃ e2, mainRun files = .error e2) := by
  constructor
  · intro pre post f r hpre hpost hf
    obtain ⟨postCs, hpost2, hpostLen⟩ := mainLoop_all_ok post hpost
    obtain ⟨preCs, hpreLen, hpre2⟩ := mainLoop_append_ok pre (f :: post) hpre
    have hmid : mainLoop (f :: post) = .ok (postCs, [r]) := by
      rw [mainLoop_cons_recovered f post r hf, hpost2]
      rfl
    refine ⟨(preCs ++ postCs).map renderClass, ?_, ?_, outcome_recovered_name f r hf⟩
    · rw [mainRun, hpre2, hmid]
      rfl
    · simp [hpreLen, hpostLen, Nat.add_comm]
  · intro files f e hf h
    obtain ⟨e2, he2⟩ := mainLoop_fatal_mem files f e hf h
    exact ⟨e2, by rw [mainRun, he2]; rfl⟩

/-- Witness for `run_failure_isolation`: a two-file corpus where the
second file has a parse error, and a one-file corpus whose file
raises an unrecognized exception. -/
theorem run_failure_isolation_witness :
    (∃ blocks, mainRun [("Foo", .ok fooTree), ("Bad", .error .cxxParseError)]
        = .ok (blocks, [.parseErr "Bad"])
      ∧ blocks.length = 1 ∧ reportName (.parseErr "Bad") = "Bad")
    ∧ (∃ e2, mainRun [("Worse", .error .otherError)] = .error e2) := by
  constructor
  · have h := run_failure_isolation.1 [("Foo", .ok fooTree)] []
      ("Bad", .error .cxxParseError) (.parseErr "Bad")
      (fun g hg => by
        rw [List.mem_singleton.mp hg]
        exact ⟨fooRecord, by decide⟩)
      (fun g hg => absurd hg (List.not_mem_nil g))
      (by decide)
    simpa using h
  · exact run_failure_isolation.2 [("Worse", .error .otherError)]
      ("Worse", .error .otherError) .otherErr (List.mem_singleton_self _) (by decide)

/-- C9: rendering is a pure function of the class record — any number
of invocations on the same record yield the same text (the embedding
is a total function reading nothing but the record). -/
theorem render_deterministic (c : CppClassR) (n : Nat) :
    (List.replicate n c).map renderClass = List.replicate n (renderClass c) := by
  simp

end ParseHeaders
